import Mathlib

/-!
Verification of the Task Classification & Session-Scoped Access Control
subsystem of the Shinobi agent service.

The definitions below are a shallow embedding of the Python source:
- `src/scripts/agent_service.py` (session registry, access validator),
- `src/scripts/agents/base_agent.py` (multi-turn tool-invocation loop),
- `src/scripts/agents/orchestrator_agent.py` (classification parsing).

The in-memory dict `_active_sessions` is modelled as an association list,
Python dict/set values are modelled with the structured shapes the code
actually inspects, and external collaborators (the LLM service, tool
handlers) are parameters of the embedded functions.
-/

namespace AgentService

/-- The shapes the validator inspects in a tool input's `data` field:
a dict (with an optional `id` entry), a list of payloads (each item either
a dict carrying an `id`, or anything else, modelled as `none`), or any
other JSON value (from which no ids are extracted). -/
inductive DataVal where
  | dict (id : Option String)
  | list (items : List (Option String))
  | other
deriving DecidableEq, Repr

/-- The fields of a tool input that `validate_access` inspects.  A `none`
field models absence of the corresponding dict key; string values model
the `str(...)` coercion the code applies. -/
structure ToolInput where
  key : Option String := none
  keys : Option (List String) := none
  data : Option DataVal := none
  collection : Option String := none
  action : Option String := none
deriving DecidableEq, Repr

/-- One entry of `_active_sessions` (agent_service.py lines 313-320).
`allowed_uuids` and `allowed_collections` are Python sets, modelled as
lists whose membership is what matters; `created_at` is an abstract
timestamp. -/
structure Session where
  allowed_uuids : List String
  allowed_collections : List String
  created_at : Nat
  agent_type : String
  primary_uuid : String
  violation_count : Nat
deriving DecidableEq, Repr

/-- The `_active_sessions` dict: an association list from session id to
session data (most recent binding first, as dict assignment overwrites). -/
abbrev SessionState := List (String × Session)

/-- Dict lookup on the session store. -/
def lookupSession : SessionState → String → Option Session
  | [], _ => none
  | (k, s) :: rest, sid => if k = sid then some s else lookupSession rest sid

/-- In-place mutation of the entry at `sid` (`session["violation_count"] += 1`
mutates the dict value held under the session id). -/
def updateSession : SessionState → String → Session → SessionState
  | [], _, _ => []
  | (k, s) :: rest, sid, s' =>
      if k = sid then (k, s') :: updateSession rest sid s'
      else (k, s) :: updateSession rest sid s'

/-- `_active_sessions.pop(session_id)`: remove the binding at `sid`. -/
def removeSession : SessionState → String → SessionState
  | [], _ => []
  | (k, s) :: rest, sid =>
      if k = sid then removeSession rest sid else (k, s) :: removeSession rest sid

/-- `create_session` (agent_service.py lines 297-325).  The fresh
`uuid.uuid4()` token is an external effect, so the generated id is a
parameter; the Python code relies on uuid4 never colliding with a live
session id.  Seeds `allowed_uuids = {primary_uuid} ∪ additional_uuids`
(a Python set; modelled as a deduplicated list). -/
def create_session (st : SessionState) (session_id : String)
    (agent_type : String) (primary_uuid : String) (collection : String)
    (additional_uuids : List String) (now : Nat) : SessionState :=
  (session_id,
    { allowed_uuids := (primary_uuid :: additional_uuids).dedup
      allowed_collections := [collection]
      created_at := now
      agent_type := agent_type
      primary_uuid := primary_uuid
      violation_count := 0 }) :: st

/-- The UUID-extraction part of `validate_access` (lines 345-367): the
`keys` list (only when present and truthy, skipping falsy entries), the
singular `key` (only when truthy), and `id` fields found in a dict or
list-of-dicts `data` payload.  Python collects them into a set; the
deduplicated list has the same membership. -/
def extractRequestedIds (input : ToolInput) : List String :=
  let fromKeys :=
    match input.keys with
    | some ks => if ks = [] then [] else ks.filter (fun k => k ≠ "")
    | none => []
  let fromKey :=
    match input.key with
    | some k => if k = "" then [] else [k]
    | none => []
  let fromData :=
    match input.data with
    | some (.dict (some i)) => [i]
    | some (.dict none) => []
    | some (.list items) => items.filterMap id
    | some .other => []
    | none => []
  (fromKeys ++ fromKey ++ fromData).dedup

/-- `str.startswith` / prefix test, via the structurally recursive list
prefix check (so that concrete instances evaluate by `decide`). -/
def strStartsWith (s pre : String) : Bool :=
  pre.toList.isPrefixOf s.toList

/-- The fixed always-readable collection allowlist (line 373). -/
def read_always_allowed : List String :=
  ["service_prompts", "agent_logs", "service_workflows"]

/-- The denial diagnostic built at lines 385-390: capped previews of the
offending and allowed ids plus the running violation number.  Python
iterates sets in unspecified order; the marker prefix is order-independent. -/
def violationMessage (unauthorized allowed : List String) (count : Nat) : String :=
  "ACCESS DENIED: Attempted to access unauthorized records. " ++
  "Requested: " ++ toString (unauthorized.take 3) ++ "... " ++
  "Session allows: " ++ toString (allowed.take 3) ++ "... " ++
  "Violation #" ++ toString count

/-- The id check of `validate_access` (agent_service.py lines 381-394,
algorithm step 5): compute the requested ids outside the session's
allowed set; deny and bump the violation counter when any exist, else
allow. -/
def checkIds (st : SessionState) (session_id : String) (session : Session)
    (tool_input : ToolInput) : (Bool × String) × SessionState :=
  let unauthorized :=
    (extractRequestedIds tool_input).filter (fun i => i ∉ session.allowed_uuids)
  if unauthorized ≠ [] then
    ((false, violationMessage unauthorized session.allowed_uuids
        (session.violation_count + 1)),
     updateSession st session_id
       { session with violation_count := session.violation_count + 1 })
  else
    ((true, "Access validated"), st)

/-- `validate_access` (agent_service.py lines 328-394).  Returns the
`(allowed, reason)` pair together with the session store after the call
(the only mutation is the violation counter bump on a denial): unknown
session → deny; non-`mcp__directus__` tool → allow; an always-readable
collection with a declared `read` action → allow unconditionally;
otherwise the id check. -/
def validate_access (st : SessionState) (session_id : String)
    (tool_name : String) (tool_input : ToolInput) :
    (Bool × String) × SessionState :=
  match lookupSession st session_id with
  | none => ((false, "Invalid session ID - session expired or never existed"), st)
  | some session =>
    if ¬ strStartsWith tool_name "mcp__directus__" then
      ((true, "Non-Directus tool - allowed"), st)
    else
      match tool_input.collection with
      | some c =>
        if read_always_allowed.contains c && tool_input.action == some "read" then
          ((true, "Read from " ++ c ++ " always allowed"), st)
        else
          checkIds st session_id session tool_input
      | none => checkIds st session_id session tool_input

/-- The summary dict returned by a successful `end_session` (lines 407-413). -/
structure SessionSummary where
  session_id : String
  agent_type : String
  duration_seconds : Nat
  violation_count : Nat
  primary_uuid : String
deriving DecidableEq, Repr

/-- `end_session` (agent_service.py lines 397-418): unknown ids yield the
`{"error": "Session not found"}` dict, modelled as `Except.error`;
otherwise the session is popped and its summary returned. -/
def end_session (st : SessionState) (session_id : String) (now : Nat) :
    Except String SessionSummary × SessionState :=
  match lookupSession st session_id with
  | none => (.error "Session not found", st)
  | some session =>
    (.ok { session_id := session_id
           agent_type := session.agent_type
           duration_seconds := now - session.created_at
           violation_count := session.violation_count
           primary_uuid := session.primary_uuid },
     removeSession st session_id)

end AgentService

namespace BaseAgent

/-- One content block of an LLM response (base_agent.py): either text or a
tool-use request `(id, name, input)`.  Tool inputs are opaque here — the
loop just forwards them to the handler. -/
inductive Block where
  | text (t : String)
  | toolUse (id : String) (name : String) (input : String)
deriving DecidableEq, Repr

/-- An LLM service response: stop reason, content blocks and usage counters
(the shape consumed by `invoke_with_tools`). -/
structure LLMResponse where
  stop_reason : String
  content : List Block
  input_tokens : Nat
  output_tokens : Nat
deriving Repr

/-- One message of the conversation history built by `invoke_with_tools`:
the initial user prompt, an assistant turn (its content blocks), or the
user turn holding tool results `(tool_use_id, content)`. -/
inductive Message where
  | user (content : String)
  | assistant (content : List Block)
  | toolResults (results : List (String × String))
deriving Repr

/-- Concatenation of the `text` attributes of a response's blocks
(the `output_text` accumulation loops in base_agent.py). -/
def textOf (blocks : List Block) : String :=
  blocks.foldl (fun acc b => match b with | .text t => acc ++ t | _ => acc) ""

/-- The result of `invoke_with_tools`: the `(success, output, tokens)`
triple, extended with the number of LLM service round-trips made so the
turn-budget bound is statable. -/
structure ToolLoopResult where
  success : Bool
  output : String
  input_tokens : Nat
  output_tokens : Nat
  service_calls : Nat
deriving Repr

/-- The `for turn in range(max_turns)` loop body of
`BaseApp.invoke_with_tools` (base_agent.py lines 191-240), with the LLM
service and the tool handler as parameters (`handler name input` models
the serialized content of `handle_tool_call`'s result).  `fuel` counts the
remaining iterations; `maxTurns` is kept for the budget-exceeded message. -/
def invokeLoop (service : List Message → LLMResponse)
    (handler : String → String → String) (maxTurns : Nat) :
    Nat → List Message → Nat → Nat → Nat → ToolLoopResult
  | 0, _, inTok, outTok, calls =>
      { success := false
        output := "Exceeded maximum turns (" ++ toString maxTurns ++ ")"
        input_tokens := inTok, output_tokens := outTok, service_calls := calls }
  | fuel + 1, messages, inTok, outTok, calls =>
      let resp := service messages
      let inTok' := inTok + resp.input_tokens
      let outTok' := outTok + resp.output_tokens
      let calls' := calls + 1
      if resp.stop_reason = "end_turn" then
        { success := true, output := textOf resp.content
          input_tokens := inTok', output_tokens := outTok', service_calls := calls' }
      else if resp.stop_reason = "tool_use" then
        let toolResults := resp.content.filterMap (fun b =>
          match b with
          | .toolUse id name input => some (id, handler name input)
          | .text _ => none)
        invokeLoop service handler maxTurns fuel
          (messages ++ [.assistant resp.content, .toolResults toolResults])
          inTok' outTok' calls'
      else
        { success := true, output := textOf resp.content
          input_tokens := inTok', output_tokens := outTok', service_calls := calls' }

/-- `BaseAgent.invoke_with_tools(prompt, max_turns=10)` (base_agent.py
lines 183-240): starts from a history holding only the task prompt and
zeroed usage counters.  Exception paths of the Python body are not taken
when the service and handlers are total functions, as here. -/
def invoke_with_tools (service : List Message → LLMResponse)
    (handler : String → String → String) (prompt : String)
    (max_turns : Nat := 10) : ToolLoopResult :=
  invokeLoop service handler max_turns max_turns [Message.user prompt] 0 0 0

end BaseAgent

namespace AgentService

/-- The `_agent_status` dict: agent type → enabled flag. -/
abbrev AgentStatus := List (String × Bool)

/-- Dict lookup with default, as used by `is_agent_enabled`. -/
def statusLookup : AgentStatus → String → Option Bool
  | [], _ => none
  | (k, b) :: rest, t => if k = t then some b else statusLookup rest t

/-- `is_agent_enabled` (agent_service.py lines 81-83):
`_agent_status.get(agent_type, False)`. -/
def is_agent_enabled (status : AgentStatus) (agent_type : String) : Bool :=
  (statusLookup status agent_type).getD false

/-- An `AgentTask` (agent_service.py lines 454-460); the free-form
`context` dict is irrelevant to dispatch and omitted. -/
structure AgentTask where
  agent_type : String
  trigger_event : String
  collection : String
  item_id : String
deriving DecidableEq, Repr

/-- An `AgentResponse` (agent_service.py lines 463-470). -/
structure AgentResponse where
  success : Bool
  agent_type : String
  task_id : String
  result : Option String := none
  error : Option String := none
  logs : List String := []
deriving DecidableEq, Repr

/-- The outcome of running a department agent (`agent.run(...)` in
`invoke_claude_agent`): success flag, optional serialized data, message,
optional error, and the number of LLM service calls the run made. -/
structure AgentRunOutcome where
  success : Bool
  data : Option String
  message : String
  error : Option String
  llm_calls : Nat
deriving Repr

/-- The `agent_map` of `get_agent_for_type` (agent_service.py lines
519-529), with each live agent object named by its department. -/
def agent_map : List (String × String) :=
  [("email", "email"), ("lead", "marketing"), ("tracker", "client_services"),
   ("finance", "finance"), ("marketing", "marketing"),
   ("client_services", "client_services")]

/-- Assoc-list lookup for the two static dispatch tables. -/
def tableLookup : List (String × String) → String → Option String
  | [], _ => none
  | (k, v) :: rest, t => if k = t then some v else tableLookup rest t

/-- `get_agent_for_type` (agent_service.py lines 519-529): `None` when the
type has no mapped agent. -/
def get_agent_for_type (t : String) : Option String :=
  tableLookup agent_map t

/-- The `department_to_type` collapse table inside `invoke_claude_agent`
(agent_service.py lines 581-588). -/
def department_to_type : List (String × String) :=
  [("finance", "finance"), ("marketing", "marketing"),
   ("client_services", "client_services"), ("sales", "marketing"),
   ("production", "client_services"), ("operations", "client_services")]

/-- `invoke_claude_agent` (agent_service.py lines 532-657).  External
collaborators are parameters: `classify task` models the orchestrator
round-trip of `classify_and_route` (returning the recommended department
and the LLM calls it consumed); `runAgent name task_id` models
`agent.run(...)` for the resolved department agent; `fresh_id` is the
`uuid.uuid4()` session token.  Returns the response, the session store
after the call, and the total number of LLM service calls made. -/
def invoke_claude_agent (status : AgentStatus)
    (classify : AgentTask → Option String × Nat)
    (runAgent : String → String → AgentRunOutcome)
    (st : SessionState) (fresh_id : String) (now : Nat)
    (task : AgentTask) : AgentResponse × SessionState × Nat :=
  if ¬ is_agent_enabled status task.agent_type then
    ({ success := false
       agent_type := task.agent_type
       task_id := task.item_id
       error := some ("Agent '" ++ task.agent_type ++ "' is currently disabled")
       logs := ["Task rejected: agent disabled"] }, st, 0)
  else
    let st1 := create_session st fresh_id task.agent_type task.item_id task.collection [] now
    let resolved : Option String × Nat :=
      match get_agent_for_type task.agent_type with
      | some a => (some a, 0)
      | none =>
        let (dept, orchestratorCalls) := classify task
        match dept with
        | some d =>
          let mapped := (tableLookup department_to_type d).getD "client_services"
          (get_agent_for_type mapped, orchestratorCalls)
        | none => (none, orchestratorCalls)
    match resolved with
    | (none, orchestratorCalls) =>
      let st2 := (end_session st1 fresh_id now).2
      ({ success := false
         agent_type := task.agent_type
         task_id := task.item_id
         error := some ("No agent available for type: " ++ task.agent_type) },
       st2, orchestratorCalls)
    | (some agentName, orchestratorCalls) =>
      let run := runAgent agentName task.item_id
      let (summary, st2) := end_session st1 fresh_id now
      let violations : Nat :=
        match summary with
        | .ok s => s.violation_count
        | .error _ => 0
      if run.success then
        ({ success := true
           agent_type := task.agent_type
           task_id := task.item_id
           result := some (run.data.getD run.message)
           logs := ["Agent: " ++ agentName,
                    "Security violations blocked: " ++ toString violations] },
         st2, orchestratorCalls + run.llm_calls)
      else
        ({ success := false
           agent_type := task.agent_type
           task_id := task.item_id
           error := some (run.error.getD "Agent execution failed")
           logs := ["Session violations: " ++ toString violations] },
         st2, orchestratorCalls + run.llm_calls)

end AgentService

namespace Orchestrator

/-- A JSON value, the shape `json.loads` produces for the classification
response.  Numbers keep their source text (their numeric value is never
consulted by the routing code under scrutiny). -/
inductive Json where
  | null
  | bool (b : Bool)
  | num (text : String)
  | str (s : String)
  | arr (elems : List Json)
  | obj (fields : List (String × Json))
deriving Repr, BEq

/-- JSON whitespace. -/
def isJsonWs (c : Char) : Bool :=
  c = ' ' || c = '\n' || c = '\t' || c = '\r'

/-- Drop leading JSON whitespace. -/
def skipWs : List Char → List Char
  | [] => []
  | c :: cs => if isJsonWs c then skipWs cs else c :: cs

/-- Parse the body of a JSON string literal after the opening quote,
returning the (unescaped-as-written) content and the remaining input.
Escape sequences are kept verbatim; this matches `json.loads` on
escape-free strings, which is the shape the classification contract
produces. -/
def parseStringBody : List Char → Option (String × List Char)
  | [] => none
  | c :: cs =>
    if c = '"' then some ("", cs)
    else if c = '\\' then
      match cs with
      | [] => none
      | e :: cs' => (parseStringBody cs').map (fun p => (⟨[c, e]⟩ ++ p.1, p.2))
    else (parseStringBody cs).map (fun p => (⟨[c]⟩ ++ p.1, p.2))

/-- Parse the digit run at the head of the input. -/
def takeDigits (cs : List Char) : List Char × List Char :=
  cs.span (fun c => c.isDigit)

/-- Parse a JSON number (sign, integer part, optional fraction and
exponent), returning its source text and the remaining input. -/
def parseNumber (cs : List Char) : Option (String × List Char) :=
  let (sign, cs₁) :=
    match cs with
    | '-' :: rest => (['-'], rest)
    | _ => ([], cs)
  let (intPart, cs₂) := takeDigits cs₁
  if intPart = [] then none
  else
    let (fracPart, cs₃) :=
      match cs₂ with
      | '.' :: rest =>
        let (ds, r) := takeDigits rest
        if ds = [] then ([], cs₂) else ('.' :: ds, r)
      | _ => ([], cs₂)
    let (expPart, cs₄) :=
      match cs₃ with
      | e :: rest =>
        if e = 'e' ∨ e = 'E' then
          let (sgn, rest₁) :=
            match rest with
            | '+' :: r => (['+'], r)
            | '-' :: r => (['-'], r)
            | _ => ([], rest)
          let (ds, r) := takeDigits rest₁
          if ds = [] then ([], cs₃) else (e :: (sgn ++ ds), r)
        else ([], cs₃)
      | [] => ([], cs₃)
    some (⟨sign ++ intPart ++ fracPart ++ expPart⟩, cs₄)

mutual

/-- Parse one JSON value; `fuel` bounds the recursion depth (any fuel
at least the input length suffices). -/
def parseValue : Nat → List Char → Option (Json × List Char)
  | 0, _ => none
  | fuel + 1, cs =>
    match skipWs cs with
    | 'n' :: 'u' :: 'l' :: 'l' :: rest => some (.null, rest)
    | 't' :: 'r' :: 'u' :: 'e' :: rest => some (.bool true, rest)
    | 'f' :: 'a' :: 'l' :: 's' :: 'e' :: rest => some (.bool false, rest)
    | '"' :: rest => (parseStringBody rest).map (fun p => (.str p.1, p.2))
    | '[' :: rest =>
      (match skipWs rest with
       | ']' :: rest' => some (.arr [], rest')
       | more => (parseElems fuel more).map (fun p => (.arr p.1, p.2)))
    | '{' :: rest =>
      (match skipWs rest with
       | '}' :: rest' => some (.obj [], rest')
       | more => (parseFields fuel more).map (fun p => (.obj p.1, p.2)))
    | other => (parseNumber other).map (fun p => (.num p.1, p.2))

/-- Parse the non-empty comma-separated element list of a JSON array,
including the closing bracket. -/
def parseElems : Nat → List Char → Option (List Json × List Char)
  | 0, _ => none
  | fuel + 1, cs =>
    match parseValue fuel cs with
    | none => none
    | some (v, rest) =>
      match skipWs rest with
      | ',' :: rest' => (parseElems fuel rest').map (fun p => (v :: p.1, p.2))
      | ']' :: rest' => some ([v], rest')
      | _ => none

/-- Parse the non-empty comma-separated field list of a JSON object,
including the closing brace. -/
def parseFields : Nat → List Char → Option (List (String × Json) × List Char)
  | 0, _ => none
  | fuel + 1, cs =>
    match skipWs cs with
    | '"' :: rest =>
      match parseStringBody rest with
      | none => none
      | some (k, rest₁) =>
        match skipWs rest₁ with
        | ':' :: rest₂ =>
          match parseValue fuel rest₂ with
          | none => none
          | some (v, rest₃) =>
            match skipWs rest₃ with
            | ',' :: rest₄ => (parseFields fuel rest₄).map (fun p => ((k, v) :: p.1, p.2))
            | '}' :: rest₄ => some ([(k, v)], rest₄)
            | _ => none
        | _ => none
    | _ => none

end

/-- `json.loads`: parse a complete JSON document; trailing non-whitespace
input is a parse error. -/
def parseJson (s : String) : Option Json :=
  match parseValue (s.length + 1) s.toList with
  | some (j, rest) => if skipWs rest = [] then some j else none
  | none => none

/-- `dict.get` on a parsed JSON object.  `json.loads` keeps the last of
duplicate keys, hence the right-biased lookup. -/
def jsonObjGet : List (String × Json) → String → Option Json
  | [], _ => none
  | (k, v) :: rest, key =>
    match jsonObjGet rest key with
    | some r => some r
    | none => if k = key then some v else none

/-- First index of `c` in the list (`str.index`). -/
def firstIdxOf (c : Char) : List Char → Option Nat
  | [] => none
  | x :: xs => if x = c then some 0 else (firstIdxOf c xs).map (· + 1)

/-- Last index of `c` in the list (`str.rindex`). -/
def lastIdxOf (c : Char) (l : List Char) : Option Nat :=
  match firstIdxOf c l.reverse with
  | some i => some (l.length - 1 - i)
  | none => none

/-- Split at the first occurrence of `sub`: returns the part before it and
the part after it, or `none` when `sub` does not occur
(`str.split(sub)` pieces 0 and 1, with the remainder scanned greedily). -/
def splitOnFirst (sub : List Char) : List Char → Option (List Char × List Char)
  | [] => if sub = [] then some ([], []) else none
  | c :: cs =>
    if sub.isPrefixOf (c :: cs) then some ([], (c :: cs).drop sub.length)
    else
      match splitOnFirst sub cs with
      | some (pre, post) => some (c :: pre, post)
      | none => none

/-- The fence markers of the classification extraction. -/
def fencedJsonMarker : List Char := "```json".toList

/-- Three backticks. -/
def fenceMarker : List Char := "```".toList

/-- The JSON-extraction logic of `OrchestratorAgent.classify_and_route`
(orchestrator_agent.py lines 335-342) on character lists:
a fenced block when present (`output.split("```json")[1].split("```")[0]`
— the part after the first fence marker, cut at the next fence), else the
slice from the first `'{'` through the last `'}'`, else the whole output.
`str.rindex` raising `ValueError` when `'{'` occurs but no `'}'` does is
the `.error` case (that exception is caught by the surrounding handler). -/
def extract_json_chars (output : List Char) : Except String (List Char) :=
  match splitOnFirst fencedJsonMarker output with
  | some (_, rest) =>
    match splitOnFirst fenceMarker rest with
    | some (pre, _) => .ok pre
    | none => .ok rest
  | none =>
    match firstIdxOf '{' output with
    | none => .ok output
    | some s0 =>
      match lastIdxOf '}' output with
      | none => .error "ValueError: substring not found"
      | some e => .ok ((output.drop s0).take (e + 1 - s0))

/-- String-level wrapper of `extract_json_chars`. -/
def extract_json_str (output : String) : Except String String :=
  (extract_json_chars output.toList).map (fun cs => ⟨cs⟩)

/-- The legal values of the `Department` enum
(orchestrator_agent.py lines 15-23). -/
def departmentValues : List String :=
  ["finance", "marketing", "client_services", "production", "sales",
   "operations", "unknown"]

/-- The fields of the `AgentResult` returned by `classify_and_route` that
the classification-parsing contract concerns: the execution success flag,
the raw LLM output, and the `classification` / `parse_error` entries of
`result_data`. -/
structure ClassifyParseResult where
  success : Bool
  output : String
  classification : Option Json := none
  parse_error : Option String := none
deriving Repr, BEq

/-- The classification-parsing step of `OrchestratorAgent.classify_and_route`
(orchestrator_agent.py lines 326-363), given the outcome of the underlying
LLM execution (`execSuccess`, `output`).  An execution failure is returned
as-is with no parse attempt (line 328-329).  Otherwise the JSON extract is
parsed; `json.JSONDecodeError` and `ValueError` (including `str.rindex`
failing and an invalid `Department` value) land in `parse_error`, with
`classification` recorded first when `json.loads` succeeded.  A parsed
non-dict value makes `classification.get` raise an uncaught
`AttributeError`, the `Except.error` case.  The `_route_to_department`
side call (an external LLM round-trip, dead in the repository since no
department agent is ever registered) is not modelled. -/
def classify_parse (execSuccess : Bool) (output : String) :
    Except String ClassifyParseResult :=
  if execSuccess = false then
    .ok { success := false, output := output }
  else
    match extract_json_str output with
    | .error e => .ok { success := true, output := output, parse_error := some e }
    | .ok jsonStr =>
      match parseJson jsonStr with
      | none =>
        .ok { success := true, output := output
              parse_error := some ("JSONDecodeError: " ++ jsonStr) }
      | some (Json.obj fields) =>
        match (jsonObjGet fields "department").getD (Json.str "unknown") with
        | Json.str d =>
          if departmentValues.contains d then
            .ok { success := true, output := output
                  classification := some (Json.obj fields) }
          else
            .ok { success := true, output := output
                  classification := some (Json.obj fields)
                  parse_error := some ("ValueError: '" ++ d ++ "' is not a valid Department") }
        | _ =>
          .ok { success := true, output := output
                classification := some (Json.obj fields)
                parse_error := some "ValueError: not a valid Department" }
      | some _ => .error "AttributeError: parsed value has no method get"

/-- Modelled from the spec: "the router must tolerate the response being
wrapped in surrounding prose (extract the first well-formed JSON object)".
The earliest (and, at that start, shortest) substring that parses as a
JSON object.  This is the spec's description of the extraction, written
for comparison with the source's `extract_json_str`. -/
def firstWellFormedJsonObject (s : String) : Option String :=
  let cs := s.toList
  let n := cs.length
  (List.range n).findSome? (fun i =>
    (List.range (n - i)).findSome? (fun len =>
      let sub : String := ⟨(cs.drop i).take (len + 1)⟩
      match parseJson sub with
      | some (Json.obj _) => some sub
      | _ => none))

end Orchestrator

namespace AgentService

/-- Run a sequence of `validate` calls against one session, threading the
session store and collecting each call's `(allowed, reason)` result. -/
def runValidateCalls (st : SessionState) (sid : String) :
    List (String × ToolInput) → SessionState × List (Bool × String)
  | [] => (st, [])
  | (tn, ti) :: rest =>
    let (res, st') := validate_access st sid tn ti
    let (stF, results) := runValidateCalls st' sid rest
    (stF, res :: results)

/-- A tool call that reaches the id check of `validate_access` and
references an id outside `allowed`: a data-store (`mcp__directus__`)
tool, not covered by the always-readable read exemption, whose extracted
ids include one outside the allowed set. -/
def deniableCall (allowed : List String) (tool_name : String)
    (input : ToolInput) : Prop :=
  strStartsWith tool_name "mcp__directus__" = true ∧
  (∀ c, input.collection = some c →
     ¬ (read_always_allowed.contains c = true ∧ input.action = some "read")) ∧
  ∃ i ∈ extractRequestedIds input, i ∉ allowed

/-- Session stores reachable from the empty store through the three
registry operations.  The freshness premise on `create` models
`uuid.uuid4()` never colliding with a live session id, which the Python
code relies on. -/
inductive Reachable : SessionState → Prop where
  | empty : Reachable []
  | create {st : SessionState} (sid a primary coll : String)
      (additional : List String) (now : Nat) :
      Reachable st → lookupSession st sid = none →
      Reachable (create_session st sid a primary coll additional now)
  | validated {st : SessionState} (sid tn : String) (ti : ToolInput) :
      Reachable st → Reachable (validate_access st sid tn ti).2
  | ended {st : SessionState} (sid : String) (now : Nat) :
      Reachable st → Reachable (end_session st sid now).2

end AgentService

namespace Orchestrator

/-- The backtick character (codepoint 96). -/
def backtick : Char := Char.ofNat 96

end Orchestrator

namespace AgentService

theorem lookup_updateSession_self {st : SessionState} {sid : String} {v : Session}
    (s' : Session) (h : lookupSession st sid = some v) :
    lookupSession (updateSession st sid s') sid = some s' := by
  induction st with
  | nil => simp [lookupSession] at h
  | cons p rest ih =>
    obtain ⟨k, s⟩ := p
    by_cases hk : k = sid
    · subst hk
      simp [updateSession, lookupSession]
    · simp [updateSession, lookupSession, hk] at h ⊢
      exact ih h

theorem lookup_updateSession_other {st : SessionState} {sid sid₂ : String}
    (s' : Session) (h : sid₂ ≠ sid) :
    lookupSession (updateSession st sid s') sid₂ = lookupSession st sid₂ := by
  induction st with
  | nil => simp [updateSession]
  | cons p rest ih =>
    obtain ⟨k, s⟩ := p
    by_cases hk : k = sid
    · subst hk
      simp [updateSession, lookupSession, Ne.symm h]
      exact ih
    · simp [updateSession, lookupSession, hk]
      by_cases hk₂ : k = sid₂ <;> simp [hk₂, ih]

theorem lookup_removeSession_self {st : SessionState} {sid : String} :
    lookupSession (removeSession st sid) sid = none := by
  induction st with
  | nil => simp [removeSession, lookupSession]
  | cons p rest ih =>
    obtain ⟨k, s⟩ := p
    by_cases hk : k = sid
    · simp [removeSession, hk, ih]
    · simp [removeSession, lookupSession, hk, ih]

theorem lookup_removeSession_other {st : SessionState} {sid sid' : String}
    (h : sid ≠ sid') :
    lookupSession (removeSession st sid') sid = lookupSession st sid := by
  induction st with
  | nil => simp [removeSession]
  | cons p rest ih =>
    obtain ⟨k, s⟩ := p
    by_cases hk : k = sid'
    · subst hk
      simp [removeSession, lookupSession, Ne.symm h, ih]
    · simp [removeSession, lookupSession, hk, ih]

theorem lookup_create_session (st : SessionState) (sid sid' a primary coll : String)
    (additional : List String) (now : Nat) :
    lookupSession (create_session st sid' a primary coll additional now) sid =
      if sid' = sid then
        some { allowed_uuids := (primary :: additional).dedup
               allowed_collections := [coll]
               created_at := now
               agent_type := a
               primary_uuid := primary
               violation_count := 0 }
      else lookupSession st sid := by
  simp [create_session, lookupSession]

theorem validate_unknown {st : SessionState} {sid : String}
    (tn : String) (ti : ToolInput) (h : lookupSession st sid = none) :
    validate_access st sid tn ti =
      ((false, "Invalid session ID - session expired or never existed"), st) := by
  simp [validate_access, h]

theorem checkIds_allowed {st : SessionState} {sid : String} {sess : Session}
    {ti : ToolInput} (hids : ∀ i ∈ extractRequestedIds ti, i ∈ sess.allowed_uuids) :
    checkIds st sid sess ti = ((true, "Access validated"), st) := by
  unfold checkIds
  rw [if_neg]
  intro hne
  apply hne
  rw [List.filter_eq_nil_iff]
  intro a ha
  simpa using hids a ha

theorem checkIds_denied {st : SessionState} {sid : String} {sess : Session}
    {ti : ToolInput} {i : String} (hiMem : i ∈ extractRequestedIds ti)
    (hiOut : i ∉ sess.allowed_uuids) :
    (checkIds st sid sess ti).1.1 = false ∧
    (checkIds st sid sess ti).2 =
      updateSession st sid { sess with violation_count := sess.violation_count + 1 } := by
  unfold checkIds
  rw [if_pos]
  · exact ⟨rfl, rfl⟩
  · intro hnil
    have := List.filter_eq_nil_iff.mp hnil i hiMem
    simp [hiOut] at this

theorem checkIds_state_cases (st : SessionState) (sid : String) (sess : Session)
    (ti : ToolInput) :
    (checkIds st sid sess ti).2 = st ∨
    ((checkIds st sid sess ti).1.1 = false ∧
     (checkIds st sid sess ti).2 =
       updateSession st sid { sess with violation_count := sess.violation_count + 1 }) := by
  unfold checkIds
  dsimp only
  split
  · right
    exact ⟨rfl, rfl⟩
  · left
    rfl

theorem validate_allowed_of_ids_allowed {st : SessionState} {sid : String}
    {sess : Session} (tn : String) (ti : ToolInput)
    (h : lookupSession st sid = some sess)
    (hids : ∀ i ∈ extractRequestedIds ti, i ∈ sess.allowed_uuids) :
    (validate_access st sid tn ti).1.1 = true ∧
    (validate_access st sid tn ti).2 = st := by
  unfold validate_access
  rw [h]
  by_cases hp : strStartsWith tn "mcp__directus__"
  · simp only [hp, not_true_eq_false, if_false]
    rcases ti.collection with _ | c
    · rw [checkIds_allowed hids]
      exact ⟨rfl, rfl⟩
    · dsimp only
      split
      · exact ⟨rfl, rfl⟩
      · rw [checkIds_allowed hids]
        exact ⟨rfl, rfl⟩
  · simp [hp]

theorem validate_denied_step {st : SessionState} {sid : String} {sess : Session}
    {tn : String} {ti : ToolInput} (h : lookupSession st sid = some sess)
    (hb : deniableCall sess.allowed_uuids tn ti) :
    (validate_access st sid tn ti).1.1 = false ∧
    (validate_access st sid tn ti).2 =
      updateSession st sid { sess with violation_count := sess.violation_count + 1 } := by
  obtain ⟨hp, hcol, i, hiMem, hiOut⟩ := hb
  unfold validate_access
  rw [h]
  simp only [hp, not_true_eq_false, if_false]
  rcases hc : ti.collection with _ | c
  · exact checkIds_denied hiMem hiOut
  · dsimp only
    rw [if_neg]
    · exact checkIds_denied hiMem hiOut
    · intro hcond
      rw [Bool.and_eq_true] at hcond
      exact hcol c hc ⟨hcond.1, by simpa using hcond.2⟩

theorem validate_state_cases (st : SessionState) (sid tn : String) (ti : ToolInput) :
    (validate_access st sid tn ti).2 = st ∨
    ∃ sess, lookupSession st sid = some sess ∧
      (validate_access st sid tn ti).1.1 = false ∧
      (validate_access st sid tn ti).2 =
        updateSession st sid { sess with violation_count := sess.violation_count + 1 } := by
  unfold validate_access
  cases h : lookupSession st sid with
  | none => simp
  | some sess =>
    by_cases hp : strStartsWith tn "mcp__directus__"
    · simp only [hp, not_true_eq_false, if_false]
      have hck := checkIds_state_cases st sid sess ti
      rcases ti.collection with _ | c
      · rcases hck with h1 | ⟨h1, h2⟩
        · left
          exact h1
        · right
          exact ⟨sess, rfl, h1, h2⟩
      · dsimp only
        split
        · left
          rfl
        · rcases hck with h1 | ⟨h1, h2⟩
          · left
            exact h1
          · right
            exact ⟨sess, rfl, h1, h2⟩
    · simp [hp]

theorem end_session_some {st : SessionState} {sid : String} {sess : Session}
    (now : Nat) (h : lookupSession st sid = some sess) :
    end_session st sid now =
      (.ok { session_id := sid
             agent_type := sess.agent_type
             duration_seconds := now - sess.created_at
             violation_count := sess.violation_count
             primary_uuid := sess.primary_uuid },
       removeSession st sid) := by
  simp [end_session, h]

theorem end_session_none {st : SessionState} {sid : String} (now : Nat)
    (h : lookupSession st sid = none) :
    end_session st sid now = (.error "Session not found", st) := by
  simp [end_session, h]

theorem lookup_end_session_state {st : SessionState} {sid sid' : String}
    {now : Nat} {v : Session}
    (h : lookupSession (end_session st sid' now).2 sid = some v) :
    lookupSession st sid = some v ∧ sid ≠ sid' := by
  cases h' : lookupSession st sid' with
  | none =>
    rw [end_session_none now h'] at h
    refine ⟨h, ?_⟩
    rintro rfl
    rw [h] at h'
    exact Option.noConfusion h'
  | some sess =>
    rw [end_session_some now h'] at h
    by_cases hs : sid = sid'
    · subst hs
      rw [lookup_removeSession_self] at h
      exact Option.noConfusion h
    · rw [lookup_removeSession_other hs] at h
      exact ⟨h, hs⟩

/-- C4: `end_session` on an unknown or already-ended id returns the
"Session not found" error and leaves the store unchanged; a successful
`end_session` yields the session's summary exactly once — immediately
afterwards a second `end_session` on the same id fails with the same
error, and every subsequent `validate` on that id is denied with the
invalid-session reason. -/
theorem end_session_unknown_and_retired (st : SessionState) (sid : String) (now : Nat) :
    (lookupSession st sid = none →
       end_session st sid now = (.error "Session not found", st)) ∧
    (∀ sess, lookupSession st sid = some sess →
       (end_session st sid now).1 =
         .ok { session_id := sid
               agent_type := sess.agent_type
               duration_seconds := now - sess.created_at
               violation_count := sess.violation_count
               primary_uuid := sess.primary_uuid } ∧
       (∀ now', end_session (end_session st sid now).2 sid now' =
          (.error "Session not found", (end_session st sid now).2)) ∧
       (∀ tn ti, validate_access (end_session st sid now).2 sid tn ti =
          ((false, "Invalid session ID - session expired or never existed"),
           (end_session st sid now).2))) := by
  constructor
  · intro h
    exact end_session_none now h
  · intro sess h
    have hend := end_session_some now h
    have hnone : lookupSession (end_session st sid now).2 sid = none := by
      rw [hend]
      exact lookup_removeSession_self
    refine ⟨by rw [hend], fun now' => end_session_none now' hnone,
      fun tn ti => validate_unknown tn ti hnone⟩

/-- C4 witness: concrete run — ending a fresh session succeeds with its
summary, and both a second `end_session` and a `validate` on the retired
id fail with the session-not-found / invalid-session errors. -/
theorem end_session_unknown_and_retired_witness :
    (end_session (create_session [] "s" "finance" "A" "invoices" [] 0) "s" 7).1 =
      .ok { session_id := "s", agent_type := "finance", duration_seconds := 7,
            violation_count := 0, primary_uuid := "A" } ∧
    end_session (end_session (create_session [] "s" "finance" "A" "invoices" [] 0) "s" 7).2 "s" 9 =
      (.error "Session not found",
       (end_session (create_session [] "s" "finance" "A" "invoices" [] 0) "s" 7).2) ∧
    validate_access (end_session (create_session [] "s" "finance" "A" "invoices" [] 0) "s" 7).2
        "s" "mcp__directus__read_items" { key := some "A" } =
      ((false, "Invalid session ID - session expired or never existed"),
       (end_session (create_session [] "s" "finance" "A" "invoices" [] 0) "s" 7).2) := by
  have h := (end_session_unknown_and_retired
      (create_session [] "s" "finance" "A" "invoices" [] 0) "s" 7).2
      { allowed_uuids := ["A"], allowed_collections := ["invoices"], created_at := 0,
        agent_type := "finance", primary_uuid := "A", violation_count := 0 } rfl
  exact ⟨h.1, h.2.1 9, h.2.2 "mcp__directus__read_items" { key := some "A" }⟩

/-- C2 counterexample: in the spec's scenario the second call uses the
bare tool name `"store_write"`, which is outside the `mcp__directus__`
namespace, so `validate_access` allows it as a non-Directus tool even
though it references `INV-2 ∉ allowed_record_ids` — the claimed denial
does not happen. -/
theorem store_write_scenario_counterexample :
    extractRequestedIds { key := some "INV-2" } = ["INV-2"] ∧
    lookupSession (create_session [] "sid-0" "finance" "INV-1" "invoices" [] 0) "sid-0" =
      some { allowed_uuids := ["INV-1"], allowed_collections := ["invoices"],
             created_at := 0, agent_type := "finance", primary_uuid := "INV-1",
             violation_count := 0 } ∧
    validate_access (create_session [] "sid-0" "finance" "INV-1" "invoices" [] 0)
        "sid-0" "store_write" { key := some "INV-2" } =
      ((true, "Non-Directus tool - allowed"),
       create_session [] "sid-0" "finance" "INV-1" "invoices" [] 0) := by
  refine ⟨rfl, rfl, rfl⟩

/-- C2 (amended): the scenario holds once the tool name carries the
data-store namespace: after `create_session("finance", "INV-1",
"invoices")`, `validate(sid, "mcp__directus__store_write",
{"key": "INV-1"})` is allowed, and the same call with `{"key": "INV-2"}`
is denied with a reason carrying the explicit `ACCESS DENIED` marker while
the session's violation count moves to 1. -/
theorem store_write_scenario :
    (validate_access (create_session [] "sid-0" "finance" "INV-1" "invoices" [] 0)
        "sid-0" "mcp__directus__store_write" { key := some "INV-1" }).1 =
      (true, "Access validated") ∧
    (validate_access (create_session [] "sid-0" "finance" "INV-1" "invoices" [] 0)
        "sid-0" "mcp__directus__store_write" { key := some "INV-2" }).1.1 = false ∧
    strStartsWith
      (validate_access (create_session [] "sid-0" "finance" "INV-1" "invoices" [] 0)
        "sid-0" "mcp__directus__store_write" { key := some "INV-2" }).1.2
      "ACCESS DENIED" = true ∧
    lookupSession
      (validate_access (create_session [] "sid-0" "finance" "INV-1" "invoices" [] 0)
        "sid-0" "mcp__directus__store_write" { key := some "INV-2" }).2 "sid-0" =
      some { allowed_uuids := ["INV-1"], allowed_collections := ["invoices"],
             created_at := 0, agent_type := "finance", primary_uuid := "INV-1",
             violation_count := 1 } := by
  refine ⟨rfl, rfl, by decide, rfl⟩

/-- C1 counterexample: a `validate` call whose tool input references the
record id `"B"`, outside the session's `allowed_record_ids = {"A"}`, is
nevertheless allowed (and the violation count stays 0) because its tool
name `"plain_tool"` is outside the data-store namespace — refuting "each
validate call whose tool input references at least one record id outside
the session's allowed_record_ids is denied". -/
theorem violation_counting_counterexample :
    "B" ∈ extractRequestedIds { key := some "B" } ∧
    lookupSession (create_session [] "s" "finance" "A" "invoices" [] 0) "s" =
      some { allowed_uuids := ["A"], allowed_collections := ["invoices"],
             created_at := 0, agent_type := "finance", primary_uuid := "A",
             violation_count := 0 } ∧
    ("B" ∈ (["A"] : List String) → False) ∧
    validate_access (create_session [] "s" "finance" "A" "invoices" [] 0)
        "s" "plain_tool" { key := some "B" } =
      ((true, "Non-Directus tool - allowed"),
       create_session [] "s" "finance" "A" "invoices" [] 0) := by
  refine ⟨by decide, rfl, by decide, rfl⟩

theorem runValidateCalls_all_denied {sid : String} (calls : List (String × ToolInput)) :
    ∀ (st : SessionState) (sess : Session), lookupSession st sid = some sess →
    (∀ c ∈ calls, deniableCall sess.allowed_uuids c.1 c.2) →
    (∀ r ∈ (runValidateCalls st sid calls).2, r.1 = false) ∧
    lookupSession (runValidateCalls st sid calls).1 sid =
      some { sess with violation_count := sess.violation_count + calls.length } := by
  induction calls with
  | nil =>
    intro st sess h _
    exact ⟨by intro r hr; simp [runValidateCalls] at hr, by simpa [runValidateCalls] using h⟩
  | cons c rest ih =>
    intro st sess h hbad
    obtain ⟨hden, hst⟩ := validate_denied_step h (hbad c (List.mem_cons_self c rest))
    have hlook : lookupSession (validate_access st sid c.1 c.2).2 sid =
        some { sess with violation_count := sess.violation_count + 1 } := by
      rw [hst]
      exact lookup_updateSession_self _ h
    have hrest := ih (validate_access st sid c.1 c.2).2
      { sess with violation_count := sess.violation_count + 1 } hlook
      (fun c' hc' => hbad c' (List.mem_cons_of_mem c hc'))
    constructor
    · intro r hr
      obtain ⟨tn, ti⟩ := c
      simp only [runValidateCalls, List.mem_cons] at hr
      rcases hr with hr | hr
      · rw [hr]
        exact hden
      · exact hrest.1 r hr
    · obtain ⟨tn, ti⟩ := c
      simp only [runValidateCalls]
      have := hrest.2
      simp only [runValidateCalls] at this ⊢
      rw [this]
      simp [Nat.add_assoc, Nat.add_comm 1 rest.length]

/-- C1 (amended): restricted to data-store (`mcp__directus__`) calls not
covered by the always-readable read exemption — the only calls the id
check applies to — every call referencing an id outside the session's
`allowed_record_ids` is denied and increments `violation_count` by
exactly 1; after N such denied calls on a fresh session the count is
exactly N, and `end_session` reports that same N in its summary. -/
theorem violation_counting (st : SessionState)
    (sid a primary coll : String) (additional : List String) (now now' : Nat)
    (calls : List (String × ToolInput))
    (hbad : ∀ c ∈ calls, deniableCall (primary :: additional).dedup c.1 c.2) :
    (∀ r ∈ (runValidateCalls (create_session st sid a primary coll additional now)
              sid calls).2, r.1 = false) ∧
    lookupSession (runValidateCalls (create_session st sid a primary coll additional now)
        sid calls).1 sid =
      some { allowed_uuids := (primary :: additional).dedup
             allowed_collections := [coll], created_at := now, agent_type := a
             primary_uuid := primary, violation_count := calls.length } ∧
    (end_session (runValidateCalls (create_session st sid a primary coll additional now)
        sid calls).1 sid now').1 =
      .ok { session_id := sid, agent_type := a, duration_seconds := now' - now
            violation_count := calls.length, primary_uuid := primary } := by
  have hlook : lookupSession (create_session st sid a primary coll additional now) sid =
      some { allowed_uuids := (primary :: additional).dedup
             allowed_collections := [coll], created_at := now, agent_type := a
             primary_uuid := primary, violation_count := 0 } := by
    rw [lookup_create_session]
    simp
  have hmain := runValidateCalls_all_denied calls _ _ hlook hbad
  have hfinal := hmain.2
  simp only [Nat.zero_add] at hfinal
  refine ⟨hmain.1, hfinal, ?_⟩
  rw [end_session_some now' hfinal]

/-- C1 witness: two denied data-store calls against a session allowing
only `"A"`: both are denied, the final violation count is 2, and
`end_session` reports 2. -/
theorem violation_counting_witness :
    (∀ r ∈ (runValidateCalls (create_session [] "s" "finance" "A" "invoices" [] 0)
              "s" [("mcp__directus__update_item", { key := some "B" }),
                   ("mcp__directus__read_items", { keys := some ["A", "C"] })]).2,
       r.1 = false) ∧
    (end_session (runValidateCalls (create_session [] "s" "finance" "A" "invoices" [] 0)
        "s" [("mcp__directus__update_item", { key := some "B" }),
             ("mcp__directus__read_items", { keys := some ["A", "C"] })]).1 "s" 4).1 =
      .ok { session_id := "s", agent_type := "finance", duration_seconds := 4,
            violation_count := 2, primary_uuid := "A" } := by
  have h := violation_counting [] "s" "finance" "A" "invoices" [] 0 4
    [("mcp__directus__update_item", { key := some "B" }),
     ("mcp__directus__read_items", { keys := some ["A", "C"] })]
    (by
      intro c hc
      simp only [List.mem_cons, List.not_mem_nil, or_false] at hc
      rcases hc with hc | hc <;> subst hc
      · exact ⟨rfl, by intro c h; exact Option.noConfusion h, "B", by decide, by decide⟩
      · exact ⟨rfl, by intro c h; exact Option.noConfusion h, "C", by decide, by decide⟩)
  exact ⟨h.1, h.2.2⟩

theorem checkIds_denied_iff (st : SessionState) (sid : String) (sess : Session)
    (ti : ToolInput) :
    ((checkIds st sid sess ti).1.1 = false ↔
      ∃ i ∈ extractRequestedIds ti, i ∉ sess.allowed_uuids) := by
  unfold checkIds
  dsimp only
  split
  · next hne =>
    simp only [true_iff, Bool.false_eq_true, iff_true]
    rcases List.exists_mem_of_ne_nil _ hne with ⟨i, hi⟩
    rw [List.mem_filter] at hi
    exact ⟨i, hi.1, by simpa using hi.2⟩
  · next hnil =>
    rw [not_not] at hnil
    simp only [Bool.true_eq_false, false_iff, not_exists]
    intro i
    rintro ⟨hi, hout⟩
    have := List.filter_eq_nil_iff.mp hnil i hi
    simp [hout] at this

/-- C3: for a live session, a call declaring a collection in the
always-readable allowlist together with the `read` action is allowed
unconditionally (whatever ids it references) and leaves the store
untouched; a data-store call on the same collection with a non-read
action still goes through the id check — it is denied exactly when some
extracted id lies outside the session's allowed set. -/
theorem read_exemption (st : SessionState) (sid tn : String) (ti : ToolInput)
    (sess : Session) (c : String)
    (hs : lookupSession st sid = some sess)
    (hc : ti.collection = some c)
    (hal : c ∈ read_always_allowed) :
    (ti.action = some "read" →
       (validate_access st sid tn ti).1.1 = true ∧
       (validate_access st sid tn ti).2 = st) ∧
    (strStartsWith tn "mcp__directus__" = true → ti.action ≠ some "read" →
       ((validate_access st sid tn ti).1.1 = false ↔
          ∃ i ∈ extractRequestedIds ti, i ∉ sess.allowed_uuids)) := by
  constructor
  · intro hact
    unfold validate_access
    rw [hs]
    by_cases hp : strStartsWith tn "mcp__directus__"
    · simp only [hp, not_true_eq_false, if_false]
      rw [hc]
      dsimp only
      rw [if_pos]
      · exact ⟨rfl, rfl⟩
      · rw [Bool.and_eq_true]
        refine ⟨List.contains_iff_exists_mem_beq.mpr ⟨c, hal, by simp⟩, ?_⟩
        rw [hact]
        simp
    · simp [hp]
  · intro hp hact
    unfold validate_access
    rw [hs]
    simp only [hp, not_true_eq_false, if_false]
    rw [hc]
    dsimp only
    rw [if_neg]
    · exact checkIds_denied_iff st sid sess ti
    · rw [Bool.and_eq_true]
      rintro ⟨-, h2⟩
      exact hact (by simpa using h2)

/-- C3 witness: with allowed ids `{"A"}`, a read on `agent_logs`
referencing the foreign id `"B"` is allowed, while a write on the same
collection referencing `"B"` is denied. -/
theorem read_exemption_witness :
    (validate_access (create_session [] "s" "finance" "A" "invoices" [] 0) "s"
        "mcp__directus__items" { keys := some ["B"], collection := some "agent_logs",
                                 action := some "read" }).1.1 = true ∧
    ((validate_access (create_session [] "s" "finance" "A" "invoices" [] 0) "s"
        "mcp__directus__items" { keys := some ["B"], collection := some "agent_logs",
                                 action := some "write" }).1.1 = false ↔ True) := by
  have h := read_exemption (create_session [] "s" "finance" "A" "invoices" [] 0) "s"
    "mcp__directus__items"
    { keys := some ["B"], collection := some "agent_logs", action := some "read" }
    { allowed_uuids := ["A"], allowed_collections := ["invoices"], created_at := 0,
      agent_type := "finance", primary_uuid := "A", violation_count := 0 }
    "agent_logs" rfl rfl (by decide)
  have h' := read_exemption (create_session [] "s" "finance" "A" "invoices" [] 0) "s"
    "mcp__directus__items"
    { keys := some ["B"], collection := some "agent_logs", action := some "write" }
    { allowed_uuids := ["A"], allowed_collections := ["invoices"], created_at := 0,
      agent_type := "finance", primary_uuid := "A", violation_count := 0 }
    "agent_logs" rfl rfl (by decide)
  refine ⟨(h.1 rfl).1, ?_⟩
  rw [h'.2 (by decide) (by decide)]
  simp only [iff_true]
  exact ⟨"B", by decide, by decide⟩

/-- C6: `create_session` always succeeds, seeding `allowed_record_ids`
with exactly the union of the primary id and the additional ids; a
`validate` call on the fresh session whose extracted ids are all the
primary id is allowed, even with no additional ids granted. -/
theorem create_session_seeds_union (st : SessionState)
    (sid a primary coll : String) (additional : List String) (now : Nat)
    (tn : String) (ti : ToolInput) :
    lookupSession (create_session st sid a primary coll additional now) sid =
      some { allowed_uuids := (primary :: additional).dedup
             allowed_collections := [coll], created_at := now, agent_type := a
             primary_uuid := primary, violation_count := 0 } ∧
    (∀ x, x ∈ (primary :: additional).dedup ↔ x = primary ∨ x ∈ additional) ∧
    ((∀ i ∈ extractRequestedIds ti, i = primary) →
       (validate_access (create_session st sid a primary coll additional now)
          sid tn ti).1.1 = true) := by
  have hlook : lookupSession (create_session st sid a primary coll additional now) sid =
      some { allowed_uuids := (primary :: additional).dedup
             allowed_collections := [coll], created_at := now, agent_type := a
             primary_uuid := primary, violation_count := 0 } := by
    rw [lookup_create_session]
    simp
  refine ⟨hlook, ?_, ?_⟩
  · intro x
    rw [List.mem_dedup, List.mem_cons]
  · intro hids
    refine (validate_allowed_of_ids_allowed tn ti hlook ?_).1
    intro i hi
    rw [hids i hi]
    exact List.mem_dedup.mpr (List.mem_cons_self _ _)

/-- C6 witness: a fresh session for primary `"P"` with no additional ids
allows a data-store call referencing only `"P"`. -/
theorem create_session_seeds_union_witness :
    lookupSession (create_session [] "s" "email" "P" "emails" [] 3) "s" =
      some { allowed_uuids := ["P"], allowed_collections := ["emails"], created_at := 3,
             agent_type := "email", primary_uuid := "P", violation_count := 0 } ∧
    (validate_access (create_session [] "s" "email" "P" "emails" [] 3) "s"
        "mcp__directus__read_item" { key := some "P" }).1.1 = true := by
  have h := create_session_seeds_union [] "s" "email" "P" "emails" [] 3
    "mcp__directus__read_item" { key := some "P" }
  exact ⟨h.1, h.2.2 (by decide)⟩

/-- C10: the validator never denies a call because of its collection —
for a live session, any call whose extracted ids all lie inside the
session's allowed set is allowed (whatever its tool name, collection or
action, including calls from which no ids are extracted at all), the
store is unchanged, and replacing the session's `allowed_collections` by
any other set cannot turn the decision into a denial. -/
theorem collection_never_denies (st : SessionState) (sid tn : String)
    (ti : ToolInput) (sess : Session)
    (hs : lookupSession st sid = some sess)
    (hids : ∀ i ∈ extractRequestedIds ti, i ∈ sess.allowed_uuids) :
    (validate_access st sid tn ti).1.1 = true ∧
    (validate_access st sid tn ti).2 = st ∧
    (∀ cols, (validate_access
        (updateSession st sid { sess with allowed_collections := cols })
        sid tn ti).1.1 = true) := by
  obtain ⟨h1, h2⟩ := validate_allowed_of_ids_allowed tn ti hs hids
  refine ⟨h1, h2, ?_⟩
  intro cols
  have hlook := lookup_updateSession_self
    { sess with allowed_collections := cols } hs
  exact (validate_allowed_of_ids_allowed tn ti hlook (by simpa using hids)).1

/-- C10 witness: a data-store create-style call naming a collection
outside the session's `allowed_collections` and carrying no extractable
ids is allowed, also after the session's collection set is replaced. -/
theorem collection_never_denies_witness :
    (validate_access (create_session [] "s" "lead" "L1" "leads" [] 0) "s"
        "mcp__directus__create_item"
        { data := some (.dict none), collection := some "invoices",
          action := some "create" }).1.1 = true ∧
    (validate_access
        (updateSession (create_session [] "s" "lead" "L1" "leads" [] 0) "s"
          { allowed_uuids := ["L1"], allowed_collections := [], created_at := 0,
            agent_type := "lead", primary_uuid := "L1", violation_count := 0 })
        "s" "mcp__directus__create_item"
        { data := some (.dict none), collection := some "invoices",
          action := some "create" }).1.1 = true := by
  have h := collection_never_denies (create_session [] "s" "lead" "L1" "leads" [] 0)
    "s" "mcp__directus__create_item"
    { data := some (.dict none), collection := some "invoices", action := some "create" }
    { allowed_uuids := ["L1"], allowed_collections := ["leads"], created_at := 0,
      agent_type := "lead", primary_uuid := "L1", violation_count := 0 }
    rfl (by decide)
  exact ⟨h.1, h.2.2 []⟩

/-- C5: in every reachable session store, each live session's
`allowed_record_ids` contains its primary id (so is never empty); and no
operation ever shrinks it — a `validate` call leaves every still-live
session's fields untouched except possibly a grown `violation_count`, an
`end_session` leaves every other live session identical, and a
`create_session` with a fresh id leaves every existing session
identical. -/
theorem allowed_ids_invariant (st : SessionState) (h : Reachable st) :
    (∀ sid sess, lookupSession st sid = some sess →
       sess.primary_uuid ∈ sess.allowed_uuids ∧ sess.allowed_uuids ≠ []) ∧
    (∀ sid sess sid' tn ti sess', lookupSession st sid = some sess →
       lookupSession (validate_access st sid' tn ti).2 sid = some sess' →
       sess'.allowed_uuids = sess.allowed_uuids ∧
       sess'.allowed_collections = sess.allowed_collections ∧
       sess'.agent_type = sess.agent_type ∧
       sess'.primary_uuid = sess.primary_uuid ∧
       sess'.created_at = sess.created_at ∧
       sess.violation_count ≤ sess'.violation_count) ∧
    (∀ sid sess sid' now sess', lookupSession st sid = some sess →
       lookupSession (end_session st sid' now).2 sid = some sess' →
       sess' = sess) ∧
    (∀ sid sess sid' a p c add now sess', lookupSession st sid = some sess →
       lookupSession st sid' = none →
       lookupSession (create_session st sid' a p c add now) sid = some sess' →
       sess' = sess) := by
  refine ⟨?_, ?_, ?_, ?_⟩
  · induction h with
    | empty =>
      intro sid sess hl
      simp [lookupSession] at hl
    | create sid' a p c add now hst hfresh ih =>
      intro sid sess hl
      rw [lookup_create_session] at hl
      by_cases hsid : sid' = sid
      · rw [if_pos hsid] at hl
        obtain rfl := Option.some_injective _ hl
        refine ⟨List.mem_dedup.mpr (List.mem_cons_self _ _), ?_⟩
        exact List.ne_nil_of_mem (List.mem_dedup.mpr (List.mem_cons_self _ _))
      · rw [if_neg hsid] at hl
        exact ih sid sess hl
    | validated sid' tn ti hst ih =>
      intro sid sess hl
      rename_i st'
      rcases validate_state_cases st' sid' tn ti with heq | ⟨sess₀, hl₀, _, heq⟩
      · rw [heq] at hl
        exact ih sid sess hl
      · rw [heq] at hl
        by_cases hsid : sid = sid'
        · subst hsid
          rw [lookup_updateSession_self _ hl₀] at hl
          obtain rfl := Option.some_injective _ hl
          exact ih sid sess₀ hl₀
        · rw [lookup_updateSession_other _ hsid] at hl
          exact ih sid sess hl
    | ended sid' now hst ih =>
      intro sid sess hl
      exact ih sid sess (lookup_end_session_state hl).1
  · intro sid sess sid' tn ti sess' hl hl'
    rcases validate_state_cases st sid' tn ti with heq | ⟨sess₀, hl₀, _, heq⟩
    · rw [heq, hl] at hl'
      obtain rfl := Option.some_injective _ hl'
      exact ⟨rfl, rfl, rfl, rfl, rfl, Nat.le_refl _⟩
    · rw [heq] at hl'
      by_cases hsid : sid = sid'
      · subst hsid
        rw [lookup_updateSession_self _ hl₀] at hl'
        rw [hl] at hl₀
        obtain rfl := Option.some_injective _ hl₀
        obtain rfl := Option.some_injective _ hl'
        exact ⟨rfl, rfl, rfl, rfl, rfl, Nat.le_succ _⟩
      · rw [lookup_updateSession_other _ hsid, hl] at hl'
        obtain rfl := Option.some_injective _ hl'
        exact ⟨rfl, rfl, rfl, rfl, rfl, Nat.le_refl _⟩
  · intro sid sess sid' now sess' hl hl'
    have := (lookup_end_session_state hl').1
    rw [hl] at this
    exact (Option.some_injective _ this).symm
  · intro sid sess sid' a p c add now sess' hl hfresh hl'
    rw [lookup_create_session] at hl'
    by_cases hsid : sid' = sid
    · subst hsid
      rw [hl] at hfresh
      exact Option.noConfusion hfresh
    · rw [if_neg hsid, hl] at hl'
      exact (Option.some_injective _ hl').symm

/-- C5 witness: the invariant instantiated on a store reached by one
fresh `create_session`: the live session's allowed set contains its
primary id and is non-empty. -/
theorem allowed_ids_invariant_witness :
    "A" ∈ (["A"] : List String) ∧ (["A"] : List String) ≠ [] := by
  have h := (allowed_ids_invariant
      (create_session [] "s" "finance" "A" "invoices" [] 0)
      (Reachable.create "s" "finance" "A" "invoices" [] 0 Reachable.empty rfl)).1
    "s"
    { allowed_uuids := ["A"], allowed_collections := ["invoices"], created_at := 0,
      agent_type := "finance", primary_uuid := "A", violation_count := 0 }
    rfl
  exact h

end AgentService

namespace BaseAgent

theorem invokeLoop_always_tool_use (service : List Message → LLMResponse)
    (handler : String → String → String) (maxTurns : Nat)
    (h : ∀ msgs, (service msgs).stop_reason = "tool_use") :
    ∀ (fuel : Nat) (messages : List Message) (inTok outTok calls : Nat),
      (invokeLoop service handler maxTurns fuel messages inTok outTok calls).success = false ∧
      (invokeLoop service handler maxTurns fuel messages inTok outTok calls).output =
        "Exceeded maximum turns (" ++ toString maxTurns ++ ")" ∧
      (invokeLoop service handler maxTurns fuel messages inTok outTok calls).service_calls =
        calls + fuel := by
  intro fuel
  induction fuel with
  | zero =>
    intro messages inTok outTok calls
    exact ⟨rfl, rfl, rfl⟩
  | succ n ih =>
    intro messages inTok outTok calls
    have hs := h messages
    unfold invokeLoop
    dsimp only
    rw [hs]
    rw [if_neg (by decide), if_pos rfl]
    have := ih (messages ++ [.assistant (service messages).content,
        .toolResults ((service messages).content.filterMap (fun b =>
          match b with
          | .toolUse id name input => some (id, handler name input)
          | .text _ => none))])
      (inTok + (service messages).input_tokens)
      (outTok + (service messages).output_tokens) (calls + 1)
    refine ⟨this.1, this.2.1, ?_⟩
    rw [this.2.2]
    omega

/-- C7: when the LLM service answers every request with a tool-use stop
reason, `invoke_with_tools` with any turn budget `maxTurns` (the Python
default is 10) makes exactly `maxTurns` service round-trips — never a
`maxTurns + 1`-th — and terminates unsuccessfully with the distinct
"Exceeded maximum turns" failure. -/
theorem turn_budget_bounds_loop (service : List Message → LLMResponse)
    (handler : String → String → String) (prompt : String) (maxTurns : Nat)
    (h : ∀ msgs, (service msgs).stop_reason = "tool_use") :
    (invoke_with_tools service handler prompt maxTurns).success = false ∧
    (invoke_with_tools service handler prompt maxTurns).output =
      "Exceeded maximum turns (" ++ toString maxTurns ++ ")" ∧
    (invoke_with_tools service handler prompt maxTurns).service_calls = maxTurns := by
  have := invokeLoop_always_tool_use service handler maxTurns h
    maxTurns [Message.user prompt] 0 0 0
  exact ⟨this.1, this.2.1, by rw [invoke_with_tools, this.2.2]; omega⟩

/-- C7 witness: a stubbed service that always requests tool use, with the
default budget of 10: the loop stops after exactly 10 round-trips with
the turn-budget failure. -/
theorem turn_budget_bounds_loop_witness :
    (invoke_with_tools
      (fun _ => { stop_reason := "tool_use"
                  content := [Block.toolUse "t1" "route_to_department" "\x7b\x7d"]
                  input_tokens := 1, output_tokens := 1 })
      (fun _ _ => "ok") "classify this" 10).success = false ∧
    (invoke_with_tools
      (fun _ => { stop_reason := "tool_use"
                  content := [Block.toolUse "t1" "route_to_department" "\x7b\x7d"]
                  input_tokens := 1, output_tokens := 1 })
      (fun _ _ => "ok") "classify this" 10).output = "Exceeded maximum turns (10)" ∧
    (invoke_with_tools
      (fun _ => { stop_reason := "tool_use"
                  content := [Block.toolUse "t1" "route_to_department" "\x7b\x7d"]
                  input_tokens := 1, output_tokens := 1 })
      (fun _ _ => "ok") "classify this" 10).service_calls = 10 :=
  turn_budget_bounds_loop
    (fun _ => { stop_reason := "tool_use"
                content := [Block.toolUse "t1" "route_to_department" "\x7b\x7d"]
                input_tokens := 1, output_tokens := 1 })
    (fun _ _ => "ok") "classify this" 10 (fun _ => rfl)

end BaseAgent

namespace AgentService

/-- C8: when the availability flag of a task's agent type is disabled,
`invoke_claude_agent` rejects it immediately with the "currently
disabled" failure, making zero LLM service calls and creating no
session — the session store is returned unchanged. -/
theorem disabled_agent_short_circuits (status : AgentStatus)
    (classify : AgentTask → Option String × Nat)
    (runAgent : String → String → AgentRunOutcome)
    (st : SessionState) (fresh_id : String) (now : Nat) (task : AgentTask)
    (h : is_agent_enabled status task.agent_type = false) :
    invoke_claude_agent status classify runAgent st fresh_id now task =
      ({ success := false
         agent_type := task.agent_type
         task_id := task.item_id
         error := some ("Agent '" ++ task.agent_type ++ "' is currently disabled")
         logs := ["Task rejected: agent disabled"] }, st, 0) := by
  unfold invoke_claude_agent
  rw [if_pos]
  rw [h]
  exact Bool.false_ne_true

/-- C8 witness: with `finance` toggled off, dispatching a finance task
returns the disabled failure, leaves the (empty) session store unchanged
and makes zero LLM calls, whatever the stubbed collaborators would do. -/
theorem disabled_agent_short_circuits_witness :
    invoke_claude_agent [("finance", false), ("email", true)]
      (fun _ => (some "finance", 5))
      (fun _ _ => { success := true, data := none, message := "done",
                    error := none, llm_calls := 7 })
      [] "fresh-id" 0
      { agent_type := "finance", trigger_event := "items.create",
        collection := "invoices", item_id := "INV-9" } =
      ({ success := false, agent_type := "finance", task_id := "INV-9",
         error := some "Agent 'finance' is currently disabled",
         logs := ["Task rejected: agent disabled"] }, [], 0) :=
  disabled_agent_short_circuits [("finance", false), ("email", true)]
    (fun _ => (some "finance", 5))
    (fun _ _ => { success := true, data := none, message := "done",
                  error := none, llm_calls := 7 })
    [] "fresh-id" 0
    { agent_type := "finance", trigger_event := "items.create",
      collection := "invoices", item_id := "INV-9" }
    rfl

end AgentService

namespace Orchestrator

theorem splitOnFirst_none_of_head_not_mem {c₀ : Char} {sub l : List Char}
    (h : ∀ a ∈ l, a ≠ c₀) : splitOnFirst (c₀ :: sub) l = none := by
  induction l with
  | nil => rfl
  | cons c cs ih =>
    unfold splitOnFirst
    rw [if_neg, ih]
    · intro a ha
      exact h a (List.mem_cons_of_mem c ha)
    · intro hpre
      unfold List.isPrefixOf at hpre
      rw [Bool.and_eq_true] at hpre
      exact h c (List.mem_cons_self c cs) (eq_of_beq hpre.1).symm

theorem firstIdxOf_append_not_mem {c : Char} {l₁ : List Char} (l₂ : List Char)
    (h : ∀ a ∈ l₁, a ≠ c) :
    firstIdxOf c (l₁ ++ l₂) = (firstIdxOf c l₂).map (fun i => l₁.length + i) := by
  induction l₁ with
  | nil =>
    cases ho : firstIdxOf c l₂ <;> simp [ho]
  | cons x xs ih =>
    have hx : ¬ x = c := h x (List.mem_cons_self x xs)
    simp only [List.cons_append, firstIdxOf, if_neg hx, List.append_eq]
    rw [ih (fun a ha => h a (List.mem_cons_of_mem x ha))]
    cases ho : firstIdxOf c l₂
    · simp [ho]
    · simp only [ho, Option.map_some']
      congr 1
      simp only [List.length_cons]
      omega

theorem extract_json_chars_prose (p1 mid p2 : List Char)
    (hnb : ∀ c ∈ p1 ++ ('{' :: (mid ++ ['}'])) ++ p2, c ≠ backtick)
    (hp1 : ∀ c ∈ p1, c ≠ '{')
    (hp2 : ∀ c ∈ p2, c ≠ '}') :
    extract_json_chars (p1 ++ ('{' :: (mid ++ ['}'])) ++ p2) =
      .ok ('{' :: (mid ++ ['}'])) := by
  have hfm : fencedJsonMarker = backtick :: "``json".toList := rfl
  have h1 : splitOnFirst fencedJsonMarker
      (p1 ++ ('{' :: (mid ++ ['}'])) ++ p2) = none := by
    rw [hfm]
    exact splitOnFirst_none_of_head_not_mem hnb
  have h2 : firstIdxOf '{' (p1 ++ ('{' :: (mid ++ ['}'])) ++ p2) = some p1.length := by
    rw [List.append_assoc, firstIdxOf_append_not_mem _ hp1]
    simp [firstIdxOf]
  have h3 : lastIdxOf '}' (p1 ++ ('{' :: (mid ++ ['}'])) ++ p2) =
      some (p1.length + mid.length + 1) := by
    unfold lastIdxOf
    have hrev : (p1 ++ ('{' :: (mid ++ ['}'])) ++ p2).reverse =
        p2.reverse ++ ('}' :: (mid.reverse ++ ('{' :: p1.reverse))) := by
      simp
    have hhead : firstIdxOf '}' ('}' :: (mid.reverse ++ ('{' :: p1.reverse))) =
        some 0 := rfl
    rw [hrev, firstIdxOf_append_not_mem _ (fun a ha => hp2 a (List.mem_reverse.mp ha)),
      hhead]
    simp only [Option.map_some', Nat.add_zero]
    congr 1
    simp only [List.length_append, List.length_cons, List.length_reverse,
      List.length_nil, Nat.add_zero]
    omega
  unfold extract_json_chars
  rw [h1, h2, h3]
  dsimp only
  have harith : p1.length + mid.length + 1 + 1 - p1.length = mid.length + 2 := by omega
  rw [harith]
  have hdrop : (p1 ++ ('{' :: (mid ++ ['}'])) ++ p2).drop p1.length =
      ('{' :: (mid ++ ['}'])) ++ p2 := by
    rw [List.append_assoc]
    exact List.drop_left' rfl
  rw [hdrop, List.take_left']
  simp

/-- C9 counterexample: the response text `{"a":1} }` contains a
well-formed JSON object (`{"a":1}`, per the spec-modelled extractor), but
the router's slice from the first `{` to the last `}` is `{"a":1} }`,
which fails to parse, so the call is recorded as a parse failure with no
classification — the router does not extract the first well-formed JSON
object. -/
theorem classification_extraction_counterexample :
    firstWellFormedJsonObject "\x7b\"a\":1\x7d \x7d" = some "\x7b\"a\":1\x7d" ∧
    extract_json_str "\x7b\"a\":1\x7d \x7d" = .ok "\x7b\"a\":1\x7d \x7d" ∧
    parseJson "\x7b\"a\":1\x7d \x7d" = none ∧
    classify_parse true "\x7b\"a\":1\x7d \x7d" =
      .ok { success := true, output := "\x7b\"a\":1\x7d \x7d", classification := none,
            parse_error := some "JSONDecodeError: \x7b\"a\":1\x7d \x7d" } :=
  ⟨rfl, rfl, rfl, rfl⟩

/-- C9 (amended): the router extracts the fenced ```json block when one
is present, and otherwise the slice from the first `{` through the last
`}` — so it does tolerate prose before the first `{` and prose without
braces after the last `}` around one JSON object — and parses that
extract; an execution failure of the LLM call is returned as an
unsuccessful result with no parse attempt, while a successful call whose
extract does not parse (or has no `}` after a `{`) is recorded as a parse
failure with `parse_error` set and no classification. -/
theorem classification_parse_contract (output : String) :
    (classify_parse false output = .ok { success := false, output := output }) ∧
    (∀ e, extract_json_str output = .error e →
       classify_parse true output =
         .ok { success := true, output := output, parse_error := some e }) ∧
    (∀ s, extract_json_str output = .ok s → parseJson s = none →
       classify_parse true output =
         .ok { success := true, output := output
               parse_error := some ("JSONDecodeError: " ++ s) }) ∧
    (∀ p1 mid p2 fields,
       output.toList = p1 ++ ('{' :: (mid ++ ['}'])) ++ p2 →
       (∀ c ∈ output.toList, c ≠ backtick) →
       (∀ c ∈ p1, c ≠ '{') →
       (∀ c ∈ p2, c ≠ '}') →
       parseJson ⟨'{' :: (mid ++ ['}'])⟩ = some (Json.obj fields) →
       ∃ r, classify_parse true output = .ok r ∧
         r.success = true ∧ r.classification = some (Json.obj fields)) := by
  refine ⟨by simp [classify_parse], ?_, ?_, ?_⟩
  · intro e he
    simp [classify_parse, he]
  · intro s hs hp
    simp [classify_parse, hs, hp]
  · intro p1 mid p2 fields hout hnb hp1 hp2 hparse
    have hx : extract_json_str output = .ok ⟨'{' :: (mid ++ ['}'])⟩ := by
      unfold extract_json_str
      rw [hout] at hnb ⊢
      rw [extract_json_chars_prose p1 mid p2 hnb hp1 hp2]
      rfl
    unfold classify_parse
    simp only [Bool.true_eq_false, if_false, hx, hparse]
    split <;> first
      | exact ⟨_, rfl, rfl, rfl⟩
      | (split <;> exact ⟨_, rfl, rfl, rfl⟩)

/-- C9 witness: instantiating the contract — an execution failure passes
through unparsed; a response with prose around one JSON object is
classified from that object; a brace-free response is recorded as a
parse failure. -/
theorem classification_parse_contract_witness :
    classify_parse false "transport timeout" =
      .ok { success := false, output := "transport timeout" } ∧
    (∃ r, classify_parse true "Routing: \x7b\"department\": \"finance\"\x7d done." = .ok r ∧
       r.success = true ∧
       r.classification = some (Json.obj [("department", Json.str "finance")])) ∧
    classify_parse true "no json at all" =
      .ok { success := true, output := "no json at all"
            parse_error := some "JSONDecodeError: no json at all" } := by
  refine ⟨(classification_parse_contract "transport timeout").1, ?_, ?_⟩
  · exact (classification_parse_contract "Routing: \x7b\"department\": \"finance\"\x7d done.").2.2.2
      "Routing: ".toList "\"department\": \"finance\"".toList " done.".toList
      [("department", Json.str "finance")] rfl (by decide) (by decide) (by decide) rfl
  · exact (classification_parse_contract "no json at all").2.2.1
      "no json at all" rfl rfl

end Orchestrator
